import Mathlib

/-!
Shallow embedding of the analytical core of `src/bin/coach.rs` (dota2-coach).

Conventions:
* Rust `i32` values are modelled as `Int`; none of the modelled computations
  (sums of at most 20 samples, clock arithmetic) can overflow `i32` on the
  value ranges produced by the game feed, so wrap-around is not modelled.
* Rust `HashMap` is modelled as an association list `List (key × value)`;
  iteration order of a `HashMap` is unspecified in Rust, and every property
  proved below is insensitive to that order.
* Rust `f32` intermediate values (`time_factor`, `cs_per_min`,
  `deaths_per_min`) are modelled by exact rational arithmetic expressed with
  integer operations: `x as f32 / y as f32` compared against a constant `c`
  becomes a cross-multiplied integer comparison, and `(v as f32 * f) as i32`
  (truncation toward zero) becomes `Int.tdiv` of the exact product.  On every
  input appearing in the claims those f32 computations are exact, so the
  rational model agrees with the binary one there.
* `Option` fields mirror the `Option<...>` fields of the Rust structs; struct
  fields that no modelled operation reads are omitted.
-/

/-! ## Data model (subset of the `GameState` structs read by the modelled code) -/

structure MapInfo where
  game_time : Option Int
deriving DecidableEq

structure Player where
  team_name : Option String
  last_hits : Option Int
  gpm : Option Int
  xpm : Option Int
  kill_list : Option (List (String × Int))
deriving DecidableEq

structure Hero where
  alive : Option Bool
  health_percent : Option Int
  mana_percent : Option Int
deriving DecidableEq

structure Ability where
  can_cast : Option Bool
  passive : Option Bool
  ultimate : Option Bool
deriving DecidableEq

structure MinimapObject where
  image : String
  name : Option String
  team : Int
  xpos : Int
  ypos : Int
deriving DecidableEq

structure GameState where
  map : Option MapInfo
  player : Option Player
  hero : Option Hero
  abilities : Option (List (String × Ability))
  minimap : Option (List (String × MinimapObject))
deriving DecidableEq

/-- `state.map.as_ref().and_then(|m| m.game_time).unwrap_or(0)` — the game
clock extraction repeated at the top of every tracker update. -/
def GameState.gameTime (s : GameState) : Int :=
  (s.map.bind MapInfo.game_time).getD 0

/-! ## String helpers (`format_hero_name` and friends)

Rust's `str::replace` / `split` / `to_uppercase` are modelled character-wise;
all strings fed to them by the program are ASCII, where `char::to_uppercase`
and `char::to_lowercase` coincide with `Char.toUpper` / `Char.toLower`. -/

/-- Replace every occurrence of the nonempty pattern `pat` by `rep`,
scanning left to right (the semantics of Rust `str::replace`).  The `fuel`
argument only forces structural termination; it is always called with fuel
larger than the length of the subject string. -/
def replaceChars : Nat → List Char → List Char → List Char → List Char
  | 0, s, _, _ => s
  | _ + 1, [], _, _ => []
  | fuel + 1, c :: rest, pat, rep =>
    if List.isPrefixOf pat (c :: rest) then
      rep ++ replaceChars fuel (List.drop pat.length (c :: rest)) pat rep
    else
      c :: replaceChars fuel rest pat rep

/-- Rust `s.replace(pat, rep)` for a nonempty pattern. -/
def strReplace (s pat rep : String) : String :=
  String.mk (replaceChars (s.data.length + 1) s.data pat.data rep.data)

/-- Rust `s.to_lowercase()` (ASCII). -/
def strToLowercase (s : String) : String :=
  String.mk (s.data.map Char.toLower)

/-- Rust `s.split(sep)` on a single separator character. -/
def splitOnChar (sep : Char) : List Char → List (List Char)
  | [] => [[]]
  | c :: rest =>
    match splitOnChar sep rest with
    | [] => [[c]]
    | w :: ws => if c = sep then [] :: w :: ws else (c :: w) :: ws

/-- Capitalize the first character of a word (Rust
`chars.next() ... to_uppercase + rest`, ASCII). -/
def capitalizeWord : List Char → List Char
  | [] => []
  | c :: rest => Char.toUpper c :: rest

/-- `Vec::join(" ")`. -/
def joinSpace : List (List Char) → List Char
  | [] => []
  | [w] => w
  | w :: ws => w ++ ' ' :: joinSpace ws

/-- `format_hero_name`: `"npc_dota_hero_bounty_hunter"` ↦ `"Bounty Hunter"`:
strip the `npc_dota_hero_` occurrences, split on `'_'`, capitalize each word,
join with spaces. -/
def format_hero_name (name : String) : String :=
  let stripped := replaceChars (name.data.length + 1) name.data
    "npc_dota_hero_".data []
  String.mk (joinSpace ((splitOnChar '_' stripped).map capitalizeWord))

/-! ## HeroPerformanceTracker (the spec's Metric Sampler) -/

structure HeroPerformanceTracker where
  gpm_samples : List (Int × Int)
  xpm_samples : List (Int × Int)
  last_hits_samples : List (Int × Int)
  last_death_time : Int
  death_count : Int
deriving DecidableEq

def HeroPerformanceTracker.new : HeroPerformanceTracker :=
  ⟨[], [], [], 0, 0⟩

/-- `samples.push(e); if samples.len() > 20 { samples.remove(0); }` -/
def pushCap20 (l : List (Int × Int)) (e : Int × Int) : List (Int × Int) :=
  let l2 := l ++ [e]
  if 20 < l2.length then l2.tail else l2

/-- Whether the prev→cur hero pair exhibits the alive→dead transition the two
trackers look for: `last.alive.unwrap_or(true) && !cur.alive.unwrap_or(true)`. -/
def deathTransition (lastHero curHero : Hero) : Bool :=
  lastHero.alive.getD true && !(curHero.alive.getD true)

/-- Sample-push phase of `HeroPerformanceTracker::update` (the
`if let Some(player)` block; note there is no duplicate/stale-clock guard in
the source). -/
def HeroPerformanceTracker.pushSamples (tr : HeroPerformanceTracker)
    (state : GameState) : HeroPerformanceTracker :=
  let game_time := state.gameTime
  match state.player with
  | none => tr
  | some player =>
    let tr :=
      match player.gpm with
      | some gpm => { tr with gpm_samples := pushCap20 tr.gpm_samples (game_time, gpm) }
      | none => tr
    let tr :=
      match player.xpm with
      | some xpm => { tr with xpm_samples := pushCap20 tr.xpm_samples (game_time, xpm) }
      | none => tr
    match player.last_hits with
    | some lh => { tr with last_hits_samples := pushCap20 tr.last_hits_samples (game_time, lh) }
    | none => tr

/-- Death-detection phase of `HeroPerformanceTracker::update`. -/
def HeroPerformanceTracker.detectDeath (tr : HeroPerformanceTracker)
    (state : GameState) (last_state : Option GameState) :
    HeroPerformanceTracker :=
  let game_time := state.gameTime
  match state.hero, last_state with
  | some current_hero, some last_state_unwrapped =>
    match last_state_unwrapped.hero with
    | some last_hero =>
      if deathTransition last_hero current_hero then
        { tr with last_death_time := game_time, death_count := tr.death_count + 1 }
      else tr
    | none => tr
  | _, _ => tr

/-- `HeroPerformanceTracker::update`: sample pushes, then death detection,
in source order. -/
def HeroPerformanceTracker.update (tr : HeroPerformanceTracker)
    (state : GameState) (last_state : Option GameState) :
    HeroPerformanceTracker :=
  (tr.pushSamples state).detectDeath state last_state

/-- The GPM block of `display_metrics` (lines pushed when
`gpm_samples.len() >= 2`). -/
def HeroPerformanceTracker.gpm_lines (tr : HeroPerformanceTracker) : List String :=
  if 2 ≤ tr.gpm_samples.length then
    let current_gpm := ((tr.gpm_samples.getLast?).map Prod.snd).getD 0
    let avg_gpm := Int.tdiv ((tr.gpm_samples.map Prod.snd).sum) (tr.gpm_samples.length : Int)
    s!"  GPM: {current_gpm} (Avg: {avg_gpm})" ::
      (if avg_gpm + 100 < current_gpm then ["    ✅ GPM trending up significantly!"]
       else if avg_gpm + 20 < current_gpm then ["    ✅ GPM trending up"]
       else if current_gpm < avg_gpm - 100 then ["    ⚠️ GPM trending down significantly"]
       else if current_gpm < avg_gpm - 20 then ["    ⚠️ GPM trending down"]
       else [])
  else []

/-- The XPM block of `display_metrics` (no trend classification in the
source: only the latest value is printed). -/
def HeroPerformanceTracker.xpm_lines (tr : HeroPerformanceTracker) : List String :=
  if 2 ≤ tr.xpm_samples.length then
    let current_xpm := ((tr.xpm_samples.getLast?).map Prod.snd).getD 0
    [s!"  XPM: {current_xpm}"]
  else []

/-- The last-hit block of `display_metrics`.  `cs_per_min` is
`last_hits as f32 / minutes as f32`; the `{:.1}` rendering is modelled by
truncating the exact tenths value, and the benchmark comparisons
`cs_per_min >= c` by the exact cross-multiplied comparisons
`c * minutes <= last_hits` (exact since `minutes > 0`). -/
def HeroPerformanceTracker.cs_lines (tr : HeroPerformanceTracker)
    (game_time : Int) : List String :=
  if 2 ≤ tr.last_hits_samples.length then
    let current_last_hits := ((tr.last_hits_samples.getLast?).map Prod.snd).getD 0
    let minutes := Int.tdiv game_time 60
    if 0 < minutes then
      let tenths := Int.tdiv (current_last_hits * 10) minutes
      let ip := Int.tdiv tenths 10
      let fp := (Int.tmod tenths 10).natAbs
      s!"  CS/min: {ip}.{fp}" ::
        (if minutes < 10 then
          (if 7 * minutes ≤ current_last_hits then ["    ✅ Excellent early game CS"]
           else if 5 * minutes ≤ current_last_hits then ["    ✅ Good early game CS"]
           else if current_last_hits < 3 * minutes then ["    ⚠️ Early game CS needs improvement"]
           else [])
         else
          (if 8 * minutes ≤ current_last_hits then ["    ✅ Excellent CS"]
           else if 6 * minutes ≤ current_last_hits then ["    ✅ Good CS"]
           else if current_last_hits < 4 * minutes then ["    ⚠️ CS needs improvement"]
           else []))
    else []
  else []

/-- The death-analysis block of `display_metrics`.  `deaths_per_min > 0.2`
is modelled by the exact comparison `minutes < 5 * death_count`. -/
def HeroPerformanceTracker.death_lines (tr : HeroPerformanceTracker)
    (game_time : Int) : List String :=
  if 0 < tr.death_count then
    let minutes := Int.tdiv game_time 60
    let time_since_last_death := game_time - tr.last_death_time
    s!"  Deaths: {tr.death_count}" ::
      ((if 0 < minutes ∧ minutes < 5 * tr.death_count then
          ["    ⚠️ High death rate, play more cautiously"]
        else []) ++
       (if 300 < time_since_last_death then
          [s!"    ✅ Good survival streak: {Int.tdiv time_since_last_death 60} minutes without dying"]
        else []))
  else ["  Deaths: 0 - Excellent survival!"]

/-- `HeroPerformanceTracker::display_metrics`, as the concatenation of its
four blocks (the source pushes the same lines into one `Vec` in this order). -/
def HeroPerformanceTracker.display_metrics (tr : HeroPerformanceTracker)
    (game_time : Int) : List String :=
  tr.gpm_lines ++ tr.xpm_lines ++ tr.cs_lines game_time ++ tr.death_lines game_time

/-! ## EnemyPositionTracker (the spec's Entity Position Tracker) -/

structure EnemyPositionTracker where
  /-- `HashMap<String, Vec<(i32, (i32, i32))>>`: hero name ↦ history of
  `(game_time, (x, y))` samples, as an association list. -/
  positions : List (String × List (Int × Int × Int))
  last_game_time : Int
deriving DecidableEq

def EnemyPositionTracker.new : EnemyPositionTracker :=
  ⟨[], 0⟩

/-- `positions.push(e); if positions.len() > 100 { positions.remove(0); }` -/
def pushCap100 (l : List (Int × Int × Int)) (e : Int × Int × Int) :
    List (Int × Int × Int) :=
  let l2 := l ++ [e]
  if 100 < l2.length then l2.tail else l2

/-- First-occurrence association-list lookup (a `HashMap` key is unique, so
first occurrence is the occurrence). -/
def lookupA {α : Type} : List (String × α) → String → Option α
  | [], _ => none
  | (k, v) :: rest, key => if k = key then some v else lookupA rest key

/-- `self.positions.entry(name).or_insert_with(Vec::new).push((t, pos))`
followed by the length cap; a new key lands at the end of the association
list (any fixed insertion position models the unspecified `HashMap` layout). -/
def recordPos (ps : List (String × List (Int × Int × Int))) (key : String)
    (e : Int × Int × Int) : List (String × List (Int × Int × Int)) :=
  match ps with
  | [] => [(key, pushCap100 [] e)]
  | (k, h) :: rest =>
    if k = key then (k, pushCap100 h e) :: rest
    else (k, h) :: recordPos rest key e

/-- The minimap scan loop of `EnemyPositionTracker::update`: one `recordPos`
per hostile-icon object of the opposing team that carries a name. -/
def scanMinimap (ps : List (String × List (Int × Int × Int)))
    (mm : List (String × MinimapObject)) (enemy_team_id : Int) (t : Int) :
    List (String × List (Int × Int × Int)) :=
  mm.foldl
    (fun acc kv =>
      if kv.2.image = "minimap_enemyicon" ∧ kv.2.team = enemy_team_id then
        match kv.2.name with
        | some name => recordPos acc (format_hero_name name) (t, kv.2.xpos, kv.2.ypos)
        | none => acc
      else acc)
    ps

/-- The opposing team id computed by `EnemyPositionTracker::update`:
`if player_team == "radiant" { 3 } else { 2 }` where `player_team` is the
lowercased team name, `"unknown"` when the player or its team is absent. -/
def GameState.enemyTeamId (s : GameState) : Int :=
  let player_team := ((s.player.bind Player.team_name).map strToLowercase).getD "unknown"
  if player_team = "radiant" then 3 else 2

/-- `EnemyPositionTracker::update`. -/
def EnemyPositionTracker.update (tr : EnemyPositionTracker) (state : GameState) :
    EnemyPositionTracker :=
  let current_game_time := state.gameTime
  if current_game_time ≤ tr.last_game_time then tr
  else
    let ps :=
      match state.minimap with
      | some minimap => scanMinimap tr.positions minimap state.enemyTeamId current_game_time
      | none => tr.positions
    { positions := ps, last_game_time := current_game_time }

/-- Truncation toward zero of the exact rational `a / b` (for `b > 0`), the
integer value of `(x as f32) as i32` when the f32 value is exact. -/
def tdivTrunc (a b : Int) : Int := Int.tdiv a b

/-- `EnemyPositionTracker::predict_movements`.  The f32 computation
`latest + (dx as f32 * (time_since_seen / dt)) as i32` is modelled by the
exact rational value truncated toward zero, `latest + tdiv (dx * tss) dt`. -/
def EnemyPositionTracker.predict_movements (tr : EnemyPositionTracker)
    (game_time : Int) : List (String × Int × Int) :=
  tr.positions.foldl
    (fun acc p =>
      let positions := p.2
      if positions.length < 2 then acc
      else
        match positions.get? (positions.length - 1),
              positions.get? (positions.length - 2) with
        | some latest, some second_last =>
          let time_since_seen := game_time - latest.1
          if time_since_seen ≤ 30 then
            let dx := latest.2.1 - second_last.2.1
            let dy := latest.2.2 - second_last.2.2
            let dt := latest.1 - second_last.1
            if 0 < dt then
              let pred_x := latest.2.1 + tdivTrunc (dx * time_since_seen) dt
              let pred_y := latest.2.2 + tdivTrunc (dy * time_since_seen) dt
              acc ++ [(p.1, pred_x, pred_y)]
            else acc
          else acc
        | _, _ => acc)
    []

/-- The cardinal-direction classification inlined in
`get_movement_descriptions`:
`if dx.abs() > dy.abs() { E/W } else { N/S }`. -/
def movementDirection (dx dy : Int) : String :=
  if dy.natAbs < dx.natAbs then (if 0 < dx then "East" else "West")
  else (if 0 < dy then "North" else "South")

/-- `EnemyPositionTracker::get_movement_descriptions`. -/
def EnemyPositionTracker.get_movement_descriptions (tr : EnemyPositionTracker)
    (game_time : Int) : List String :=
  tr.positions.foldl
    (fun acc p =>
      let positions := p.2
      if positions.isEmpty then acc
      else
        match positions.get? (positions.length - 1) with
        | some latest =>
          let time_since_seen := game_time - latest.1
          if time_since_seen ≤ 60 then
            let lx := latest.2.1
            let ly := latest.2.2
            acc ++
              (s!"  {p.1}: Last seen {time_since_seen} seconds ago at ({lx}, {ly})" ::
                (if 2 ≤ positions.length then
                  match positions.get? (positions.length - 2) with
                  | some second_last =>
                    let dx := latest.2.1 - second_last.2.1
                    let dy := latest.2.2 - second_last.2.2
                    [s!"    Moving {movementDirection dx dy}"]
                  | none => []
                 else []))
          else acc
        | none => acc)
    []

/-! ## TeamFightAnalyzer (the spec's Event Detector) -/

structure TeamFightAnalyzer where
  /-- game times at which the local hero died -/
  player_deaths : List Int
  /-- victim name ↦ times of its recorded eliminations (association list for
  the source's `HashMap<String, Vec<i32>>`) -/
  enemy_deaths : List (String × List Int)
  last_kill_time : Int
  team_fight_detected : Bool
  team_fight_start : Int
deriving DecidableEq

def TeamFightAnalyzer.new : TeamFightAnalyzer :=
  ⟨[], [], 0, false, 0⟩

/-- `self.enemy_deaths.entry(name).or_insert_with(Vec::new).push(t)`. -/
def pushDeath (ed : List (String × List Int)) (key : String) (t : Int) :
    List (String × List Int) :=
  match ed with
  | [] => [(key, [t])]
  | (k, l) :: rest =>
    if k = key then (k, l ++ [t]) :: rest
    else (k, l) :: pushDeath rest key t

/-- Player-death phase of `TeamFightAnalyzer::update` (the first `if let`
block). -/
def TeamFightAnalyzer.recordPlayerDeath (a : TeamFightAnalyzer)
    (state : GameState) (last_state : Option GameState) : TeamFightAnalyzer :=
  let game_time := state.gameTime
  match state.hero, last_state with
  | some current_hero, some last_state_unwrapped =>
    match last_state_unwrapped.hero with
    | some last_hero =>
      if deathTransition last_hero current_hero then
        { a with player_deaths := a.player_deaths ++ [game_time],
                 last_kill_time := game_time }
      else a
    | none => a
  | _, _ => a

/-- The victim display name: `format!("Enemy{}", victim_id.replace("victimid_", ""))`. -/
def enemyNameOfVictim (victim_id : String) : String :=
  "Enemy" ++ strReplace victim_id "victimid_" ""

/-- One iteration of the kill-list diffing loop: compare the current count of
one victim entry with its previous count (`0` when the victim key is new) and
record one elimination at the current game clock on a strict increase. -/
def killStep (last_kills : List (String × Int)) (game_time : Int)
    (acc : TeamFightAnalyzer) (kv : String × Int) : TeamFightAnalyzer :=
  let last_count := (lookupA last_kills kv.1).getD 0
  if last_count < kv.2 then
    { acc with
        enemy_deaths := pushDeath acc.enemy_deaths (enemyNameOfVictim kv.1) game_time,
        last_kill_time := game_time }
  else acc

/-- Kill-list diffing phase of `TeamFightAnalyzer::update` (the second
`if let` block): iterate `killStep` over the current kill-list entries. -/
def TeamFightAnalyzer.recordKills (a : TeamFightAnalyzer)
    (state : GameState) (last_state : Option GameState) : TeamFightAnalyzer :=
  let game_time := state.gameTime
  match state.player, last_state with
  | some current_player, some last_state_unwrapped =>
    match last_state_unwrapped.player with
    | some last_player =>
      match current_player.kill_list, last_player.kill_list with
      | some current_kills, some last_kills =>
        current_kills.foldl (killStep last_kills game_time) a
      | _, _ => a
    | none => a
  | _, _ => a

/-- `TeamFightAnalyzer::count_kills_in_window`: events (player deaths plus
enemy deaths) whose time is `>= game_time - window`. -/
def TeamFightAnalyzer.count_kills_in_window (a : TeamFightAnalyzer)
    (game_time window : Int) : Nat :=
  let window_start := game_time - window
  (a.player_deaths.filter (fun t => window_start ≤ t)).length +
    (a.enemy_deaths.map (fun kv => (kv.2.filter (fun t => window_start ≤ t)).length)).sum

/-- Team-fight detection phase of `TeamFightAnalyzer::update` (the trailing
`if`/`else if`). -/
def TeamFightAnalyzer.detect (a : TeamFightAnalyzer) (game_time : Int) :
    TeamFightAnalyzer :=
  let time_since_last_kill := game_time - a.last_kill_time
  if a.team_fight_detected = false ∧ time_since_last_kill < 15 then
    if 3 ≤ a.count_kills_in_window game_time 30 then
      { a with team_fight_detected := true, team_fight_start := game_time }
    else a
  else if a.team_fight_detected = true ∧ 15 ≤ time_since_last_kill then
    { a with team_fight_detected := false }
  else a

/-- `TeamFightAnalyzer::update`: player-death detection, then kill-list
diffing, then team-fight detection, in source order. -/
def TeamFightAnalyzer.update (a : TeamFightAnalyzer) (state : GameState)
    (last_state : Option GameState) : TeamFightAnalyzer :=
  ((a.recordPlayerDeath state last_state).recordKills state last_state).detect
    state.gameTime

/-- Number of recorded enemy-elimination events. -/
def enemyEventCount (a : TeamFightAnalyzer) : Nat :=
  (a.enemy_deaths.map (fun kv => kv.2.length)).sum

/-- Total number of events ever emitted by the analyzer: player deaths plus
all recorded enemy eliminations. -/
def TeamFightAnalyzer.totalEvents (a : TeamFightAnalyzer) : Nat :=
  a.player_deaths.length + enemyEventCount a

/-- All recorded elimination timestamps. -/
def allDeathTimes (ed : List (String × List Int)) : List Int :=
  (ed.map Prod.snd).flatten

/-- The per-entity history invariant at tracker clock `t`: bounded length,
non-decreasing timestamps, and every timestamp at most `t`. -/
def histInv (t : Int) (h : List (Int × Int × Int)) : Prop :=
  h.length ≤ 100 ∧ List.Pairwise (fun a b : Int × Int × Int => a.1 ≤ b.1) h ∧
    ∀ e ∈ h, e.1 ≤ t

/-- The tracker invariant: every retained history satisfies `histInv` at the
tracker's last processed clock. -/
def EPTInv (tr : EnemyPositionTracker) : Prop :=
  ∀ p ∈ tr.positions, histInv tr.last_game_time p.2

/-! ## Team-fight readiness (`assess_team_fight_readiness` and its bucketing) -/

/-- The health contribution: `+2` above 80%, `+1` above 50%, `-1` otherwise
(absent percentage contributes nothing). -/
def healthScore (hero : Hero) : Int :=
  match hero.health_percent with
  | some health_pct => if 80 < health_pct then 2 else if 50 < health_pct then 1 else -1
  | none => 0

/-- The mana contribution: `+2` above 70%, `+1` above 40%, `-1` otherwise. -/
def manaScore (hero : Hero) : Int :=
  match hero.mana_percent with
  | some mana_pct => if 70 < mana_pct then 2 else if 40 < mana_pct then 1 else -1
  | none => 0

/-- `+2` when some ultimate ability can be cast. -/
def ultimateScore (abilities : List (String × Ability)) : Int :=
  if abilities.any (fun kv => kv.2.ultimate.getD false && kv.2.can_cast.getD false)
  then 2 else 0

/-- `+1` when every non-passive ability can be cast. -/
def keyAbilityScore (abilities : List (String × Ability)) : Int :=
  if (abilities.filter (fun kv => !(kv.2.passive.getD true))).all
      (fun kv => kv.2.can_cast.getD false)
  then 1 else 0

/-- `assess_team_fight_readiness`, written as the sum of its sequential
`score +=` contributions. -/
def assess_team_fight_readiness (state : GameState) : Int :=
  (match state.hero with
   | some hero => healthScore hero + manaScore hero
   | none => 0) +
  (match state.abilities with
   | some abilities => ultimateScore abilities + keyAbilityScore abilities
   | none => 0)

/-- The four-way advisory bucketing of the readiness score in
`display_coaching_insights` (`score >= 4` / `>= 2` / `>= 0` / otherwise). -/
def readinessAdvice (score : Int) : String :=
  if 4 ≤ score then "  ✅ Team fight readiness: Excellent! All systems ready."
  else if 2 ≤ score then "  ⚖️ Team fight readiness: Good. Most resources available."
  else if 0 ≤ score then "  ⚠️ Team fight readiness: Caution advised. Limited resources."
  else "  ❌ Team fight readiness: Not ready. Consider retreating."

/-! ## Helper lemmas -/

theorem deathTransition_iff (lh ch : Hero) :
    deathTransition lh ch = true ↔
      ((lh.alive = some true ∨ lh.alive = none) ∧ ch.alive = some false) := by
  obtain ⟨la, _, _⟩ := lh
  obtain ⟨ca, _, _⟩ := ch
  rcases la with _ | (_ | _) <;> rcases ca with _ | (_ | _) <;>
    simp [deathTransition]

theorem healthScore_bounds (h : Hero) : -1 ≤ healthScore h ∧ healthScore h ≤ 2 := by
  unfold healthScore
  rcases h.health_percent with _ | v
  · exact ⟨by norm_num, by norm_num⟩
  · dsimp only
    split_ifs <;> omega

theorem manaScore_bounds (h : Hero) : -1 ≤ manaScore h ∧ manaScore h ≤ 2 := by
  unfold manaScore
  rcases h.mana_percent with _ | v
  · exact ⟨by norm_num, by norm_num⟩
  · dsimp only
    split_ifs <;> omega

theorem ultimateScore_bounds (l : List (String × Ability)) :
    0 ≤ ultimateScore l ∧ ultimateScore l ≤ 2 := by
  unfold ultimateScore
  split_ifs <;> omega

theorem keyAbilityScore_bounds (l : List (String × Ability)) :
    0 ≤ keyAbilityScore l ∧ keyAbilityScore l ≤ 1 := by
  unfold keyAbilityScore
  split_ifs <;> omega

theorem pushSamples_death_fields (tr : HeroPerformanceTracker) (s : GameState) :
    (tr.pushSamples s).death_count = tr.death_count ∧
      (tr.pushSamples s).last_death_time = tr.last_death_time := by
  unfold HeroPerformanceTracker.pushSamples
  rcases s.player with _ | p
  · exact ⟨rfl, rfl⟩
  · dsimp only
    rcases p.gpm with _ | g <;> rcases p.xpm with _ | x <;>
      rcases p.last_hits with _ | lh <;> simp

theorem pushSamples_gpm (tr : HeroPerformanceTracker) (s : GameState)
    (p : Player) (g : Int) (hp : s.player = some p) (hg : p.gpm = some g) :
    (tr.pushSamples s).gpm_samples = pushCap20 tr.gpm_samples (s.gameTime, g) := by
  unfold HeroPerformanceTracker.pushSamples
  rw [hp]
  dsimp only
  rw [hg]
  rcases p.xpm with _ | x <;> rcases p.last_hits with _ | lh <;> simp

theorem detectDeath_samples (tr : HeroPerformanceTracker) (s : GameState)
    (ls : Option GameState) :
    (tr.detectDeath s ls).gpm_samples = tr.gpm_samples ∧
      (tr.detectDeath s ls).xpm_samples = tr.xpm_samples ∧
      (tr.detectDeath s ls).last_hits_samples = tr.last_hits_samples := by
  unfold HeroPerformanceTracker.detectDeath
  rcases s.hero with _ | ch <;> rcases ls with _ | l
  · exact ⟨rfl, rfl, rfl⟩
  · exact ⟨rfl, rfl, rfl⟩
  · exact ⟨rfl, rfl, rfl⟩
  · dsimp only
    rcases l.hero with _ | lh
    · exact ⟨rfl, rfl, rfl⟩
    · dsimp only
      split <;> simp

theorem foldl_tfa_player_deaths (l : List (String × Int))
    (f : TeamFightAnalyzer → String × Int → TeamFightAnalyzer)
    (hf : ∀ a kv, (f a kv).player_deaths = a.player_deaths)
    (a : TeamFightAnalyzer) :
    (l.foldl f a).player_deaths = a.player_deaths := by
  induction l generalizing a with
  | nil => rfl
  | cons kv rest ih => rw [List.foldl_cons, ih, hf]

theorem recordKills_player_deaths (a : TeamFightAnalyzer) (s : GameState)
    (ls : Option GameState) :
    (a.recordKills s ls).player_deaths = a.player_deaths := by
  unfold TeamFightAnalyzer.recordKills
  rcases s.player with _ | cp <;> rcases ls with _ | l
  · rfl
  · rfl
  · rfl
  · dsimp only
    rcases l.player with _ | lp
    · rfl
    · dsimp only
      rcases cp.kill_list with _ | ck <;> rcases lp.kill_list with _ | lk
      · rfl
      · rfl
      · rfl
      · exact foldl_tfa_player_deaths ck _
          (fun a kv => by simp only [killStep]; split <;> rfl) a

theorem detect_events (a : TeamFightAnalyzer) (t : Int) :
    (a.detect t).player_deaths = a.player_deaths ∧
      (a.detect t).enemy_deaths = a.enemy_deaths := by
  simp only [TeamFightAnalyzer.detect]
  split_ifs <;> exact ⟨rfl, rfl⟩

theorem recordPlayerDeath_eq (a : TeamFightAnalyzer) (s l : GameState)
    (ch lh : Hero) (hc : s.hero = some ch) (hl : l.hero = some lh) :
    a.recordPlayerDeath s (some l) =
      if deathTransition lh ch then
        { a with player_deaths := a.player_deaths ++ [s.gameTime],
                 last_kill_time := s.gameTime }
      else a := by
  unfold TeamFightAnalyzer.recordPlayerDeath
  rw [hc]
  dsimp only
  rw [hl]

theorem detectDeath_no_trans (tr : HeroPerformanceTracker) (s' : GameState)
    (ls' : Option GameState)
    (h : ∀ ch', s'.hero = some ch' → ∀ lh', deathTransition lh' ch' = false) :
    tr.detectDeath s' ls' = tr := by
  obtain ⟨mp, pl, hr, ab, mm⟩ := s'
  rcases hr with _ | ch'
  · rcases ls' with _ | l' <;> rfl
  · rcases ls' with _ | l'
    · rfl
    · rcases hlh : l'.hero with _ | lh'
      · unfold HeroPerformanceTracker.detectDeath
        dsimp only
        rw [hlh]
      · unfold HeroPerformanceTracker.detectDeath
        dsimp only
        rw [hlh]
        simp [h ch' rfl lh']

theorem recordPlayerDeath_no_trans (a : TeamFightAnalyzer) (s' : GameState)
    (ls' : Option GameState)
    (h : ∀ ch', s'.hero = some ch' → ∀ lh', deathTransition lh' ch' = false) :
    a.recordPlayerDeath s' ls' = a := by
  obtain ⟨mp, pl, hr, ab, mm⟩ := s'
  rcases hr with _ | ch'
  · rcases ls' with _ | l' <;> rfl
  · rcases ls' with _ | l'
    · rfl
    · rcases hlh : l'.hero with _ | lh'
      · unfold TeamFightAnalyzer.recordPlayerDeath
        dsimp only
        rw [hlh]
      · unfold TeamFightAnalyzer.recordPlayerDeath
        dsimp only
        rw [hlh]
        simp [h ch' rfl lh']

theorem detectDeath_eq (tr : HeroPerformanceTracker) (s l : GameState)
    (ch lh : Hero) (hc : s.hero = some ch) (hl : l.hero = some lh) :
    tr.detectDeath s (some l) =
      if deathTransition lh ch then
        { tr with last_death_time := s.gameTime, death_count := tr.death_count + 1 }
      else tr := by
  unfold HeroPerformanceTracker.detectDeath
  rw [hc]
  dsimp only
  rw [hl]

theorem pushDeath_sum (ed : List (String × List Int)) (k : String) (t : Int) :
    ((pushDeath ed k t).map (fun kv => kv.2.length)).sum =
      (ed.map (fun kv => kv.2.length)).sum + 1 := by
  induction ed with
  | nil => simp [pushDeath]
  | cons kv rest ih =>
    obtain ⟨k', l⟩ := kv
    by_cases hk : k' = k
    · simp [pushDeath, hk]
      omega
    · simp [pushDeath, hk, ih]
      omega

theorem allDeathTimes_cons (k : String) (l : List Int)
    (rest : List (String × List Int)) :
    allDeathTimes ((k, l) :: rest) = l ++ allDeathTimes rest := by
  simp [allDeathTimes]

theorem pushDeath_times (ed : List (String × List Int)) (k : String) (t : Int) :
    ∀ x ∈ allDeathTimes (pushDeath ed k t), x ∈ allDeathTimes ed ∨ x = t := by
  induction ed with
  | nil =>
    intro x hx
    simp [pushDeath, allDeathTimes] at hx
    right
    exact hx
  | cons kv rest ih =>
    obtain ⟨k', l⟩ := kv
    intro x hx
    by_cases hk : k' = k
    · rw [pushDeath, if_pos hk, allDeathTimes_cons] at hx
      rw [allDeathTimes_cons]
      rcases List.mem_append.mp hx with h | h
      · rcases List.mem_append.mp h with h' | h'
        · exact Or.inl (List.mem_append_left _ h')
        · right
          simpa using h'
      · exact Or.inl (List.mem_append_right _ h)
    · rw [pushDeath, if_neg hk, allDeathTimes_cons] at hx
      rw [allDeathTimes_cons]
      rcases List.mem_append.mp hx with h | h
      · exact Or.inl (List.mem_append_left _ h)
      · rcases ih x h with h' | h'
        · exact Or.inl (List.mem_append_right _ h')
        · exact Or.inr h'

theorem killStep_enemy_deaths (lk : List (String × Int)) (gt : Int)
    (a : TeamFightAnalyzer) (kv : String × Int) :
    (killStep lk gt a kv).enemy_deaths =
      if (lookupA lk kv.1).getD 0 < kv.2 then
        pushDeath a.enemy_deaths (enemyNameOfVictim kv.1) gt
      else a.enemy_deaths := by
  simp only [killStep]
  split <;> rfl

theorem foldl_killStep_count (lk : List (String × Int)) (gt : Int)
    (ck : List (String × Int)) :
    ∀ a : TeamFightAnalyzer,
      enemyEventCount (ck.foldl (killStep lk gt) a) =
        enemyEventCount a +
          (ck.filter (fun kv => decide ((lookupA lk kv.1).getD 0 < kv.2))).length := by
  induction ck with
  | nil => intro a; simp
  | cons kv rest ih =>
    intro a
    rw [List.foldl_cons, ih]
    by_cases hkv : (lookupA lk kv.1).getD 0 < kv.2
    · have hstep : enemyEventCount (killStep lk gt a kv) = enemyEventCount a + 1 := by
        unfold enemyEventCount
        rw [killStep_enemy_deaths, if_pos hkv, pushDeath_sum]
      rw [hstep, List.filter_cons]
      simp [hkv]
      omega
    · have hstep : enemyEventCount (killStep lk gt a kv) = enemyEventCount a := by
        unfold enemyEventCount
        rw [killStep_enemy_deaths, if_neg hkv]
      rw [hstep, List.filter_cons]
      simp [hkv]

theorem foldl_killStep_times (lk : List (String × Int)) (gt : Int)
    (ck : List (String × Int)) :
    ∀ (a : TeamFightAnalyzer) (x : Int),
      x ∈ allDeathTimes ((ck.foldl (killStep lk gt) a).enemy_deaths) →
        x ∈ allDeathTimes a.enemy_deaths ∨ x = gt := by
  induction ck with
  | nil => intro a x hx; left; exact hx
  | cons kv rest ih =>
    intro a x hx
    rw [List.foldl_cons] at hx
    rcases ih (killStep lk gt a kv) x hx with h1 | h1
    · rw [killStep_enemy_deaths] at h1
      by_cases hkv : (lookupA lk kv.1).getD 0 < kv.2
      · rw [if_pos hkv] at h1
        exact pushDeath_times _ _ _ x h1
      · rw [if_neg hkv] at h1
        left
        exact h1
    · right
      exact h1

theorem recordPlayerDeath_enemy_deaths (a : TeamFightAnalyzer) (s : GameState)
    (ls : Option GameState) :
    (a.recordPlayerDeath s ls).enemy_deaths = a.enemy_deaths := by
  unfold TeamFightAnalyzer.recordPlayerDeath
  rcases s.hero with _ | ch <;> rcases ls with _ | l
  · rfl
  · rfl
  · rfl
  · dsimp only
    rcases l.hero with _ | lh
    · rfl
    · dsimp only
      split <;> rfl

theorem deathTransition_self (h : Hero) : deathTransition h h = false := by
  unfold deathTransition
  rcases h.alive with _ | (_ | _) <;> rfl

theorem lookupA_self_nodup (kl : List (String × Int))
    (hnd : (kl.map Prod.fst).Nodup) :
    ∀ kv ∈ kl, lookupA kl kv.1 = some kv.2 := by
  induction kl with
  | nil => intro kv h; cases h
  | cons hd rest ih =>
    intro kv hkv
    obtain ⟨k', v'⟩ := hd
    rw [List.map_cons, List.nodup_cons] at hnd
    obtain ⟨hk', hrest⟩ := hnd
    rcases List.mem_cons.mp hkv with heq | hmem
    · subst heq
      simp [lookupA]
    · have hne : k' ≠ kv.1 := by
        intro he
        exact hk' (he ▸ List.mem_map.mpr ⟨kv, hmem, rfl⟩)
      simp only [lookupA, if_neg hne]
      exact ih hrest kv hmem

theorem foldl_killStep_id (lk : List (String × Int)) (gt : Int)
    (kl : List (String × Int))
    (h : ∀ kv ∈ kl, ¬ ((lookupA lk kv.1).getD 0 < kv.2)) (a : TeamFightAnalyzer) :
    kl.foldl (killStep lk gt) a = a := by
  induction kl generalizing a with
  | nil => rfl
  | cons kv rest ih =>
    rw [List.foldl_cons]
    have hstep : killStep lk gt a kv = a := by
      simp only [killStep]
      rw [if_neg (h kv (List.mem_cons_self _ _))]
    rw [hstep]
    exact ih (fun kv' h' => h kv' (List.mem_cons_of_mem _ h')) a

theorem recordPlayerDeath_dup (a : TeamFightAnalyzer) (s : GameState) :
    a.recordPlayerDeath s (some s) = a := by
  obtain ⟨mp, pl, hr, ab, mm⟩ := s
  rcases hr with _ | ch
  · rfl
  · unfold TeamFightAnalyzer.recordPlayerDeath
    dsimp only
    rw [deathTransition_self]
    simp

theorem recordKills_dup (a : TeamFightAnalyzer) (s : GameState)
    (hnd : (((s.player.bind Player.kill_list).getD []).map Prod.fst).Nodup) :
    a.recordKills s (some s) = a := by
  obtain ⟨mp, pl, hr, ab, mm⟩ := s
  rcases pl with _ | cp
  · rfl
  · unfold TeamFightAnalyzer.recordKills
    dsimp only
    rcases hck : cp.kill_list with _ | kl
    · rfl
    · simp only [Option.bind, hck, Option.getD] at hnd
      apply foldl_killStep_id
      intro kv hkv
      rw [lookupA_self_nodup kl hnd kv hkv]
      simp

theorem detect_totalEvents (a : TeamFightAnalyzer) (t : Int) :
    (a.detect t).totalEvents = a.totalEvents := by
  unfold TeamFightAnalyzer.totalEvents enemyEventCount
  rw [(detect_events a t).1, (detect_events a t).2]

theorem pushCap20_length_lt (l : List (Int × Int)) (e : Int × Int)
    (h : l.length < 20) : (pushCap20 l e).length = l.length + 1 := by
  unfold pushCap20
  rw [if_neg (by simp; omega)]
  simp

theorem lookupA_recordPos_ne_none (ps : List (String × List (Int × Int × Int)))
    (key : String) (e : Int × Int × Int) (nm : String) :
    lookupA (recordPos ps key e) nm ≠ none ↔
      (lookupA ps nm ≠ none ∨ nm = key) := by
  induction ps with
  | nil =>
    by_cases h : key = nm
    · simp [recordPos, lookupA, h]
    · have h' : ¬ nm = key := fun he => h he.symm
      simp [recordPos, lookupA, h, h']
  | cons kv rest ih =>
    obtain ⟨k, hl⟩ := kv
    by_cases hk : k = key
    · subst hk
      by_cases hn : k = nm
      · subst hn
        simp [recordPos, lookupA]
      · have hn' : ¬ nm = k := fun he => hn he.symm
        simp [recordPos, lookupA, hn, hn']
    · by_cases hn : k = nm
      · subst hn
        simp [recordPos, lookupA, hk]
      · simp [recordPos, lookupA, hk, hn, ih]

theorem scanMinimap_tracked (mm : List (String × MinimapObject)) :
    ∀ (ps : List (String × List (Int × Int × Int))) (team t : Int) (nm : String),
      lookupA (scanMinimap ps mm team t) nm ≠ none ↔
        (lookupA ps nm ≠ none ∨
          ∃ kv ∈ mm, kv.2.image = "minimap_enemyicon" ∧ kv.2.team = team ∧
            ∃ n, kv.2.name = some n ∧ format_hero_name n = nm) := by
  induction mm with
  | nil =>
    intro ps team t nm
    simp [scanMinimap]
  | cons kv rest ih =>
    intro ps team t nm
    have hstep : scanMinimap ps (kv :: rest) team t =
        scanMinimap
          (if kv.2.image = "minimap_enemyicon" ∧ kv.2.team = team then
            match kv.2.name with
            | some name => recordPos ps (format_hero_name name) (t, kv.2.xpos, kv.2.ypos)
            | none => ps
          else ps) rest team t := rfl
    rw [hstep]
    by_cases hc : kv.2.image = "minimap_enemyicon" ∧ kv.2.team = team
    · rcases hname : kv.2.name with _ | n
      · rw [if_pos hc]
        dsimp only
        rw [ih]
        simp [hname]
      · rw [if_pos hc]
        dsimp only
        rw [ih, lookupA_recordPos_ne_none]
        simp only [List.mem_cons, hname]
        constructor
        · rintro ((h | h) | h)
          · exact Or.inl h
          · exact Or.inr ⟨kv, Or.inl rfl, hc.1, hc.2, n, hname, h.symm⟩
          · obtain ⟨kv', hkv', hprop⟩ := h
            exact Or.inr ⟨kv', Or.inr hkv', hprop⟩
        · rintro (h | ⟨kv', (rfl | hkv'), hprop⟩)
          · exact Or.inl (Or.inl h)
          · obtain ⟨_, _, n', hn', hfmt⟩ := hprop
            rw [hname] at hn'
            obtain rfl : n = n' := by injection hn'
            exact Or.inl (Or.inr hfmt.symm)
          · exact Or.inr ⟨kv', hkv', hprop⟩
    · rw [if_neg hc, ih]
      constructor
      · rintro (h | ⟨kv', hkv', hprop⟩)
        · exact Or.inl h
        · exact Or.inr ⟨kv', List.mem_cons_of_mem _ hkv', hprop⟩
      · rintro (h | ⟨kv', hkv', hprop⟩)
        · exact Or.inl h
        · rcases List.mem_cons.mp hkv' with rfl | hkv''
          · exact absurd ⟨hprop.1, hprop.2.1⟩ hc
          · exact Or.inr ⟨kv', hkv'', hprop⟩

theorem pushCap100_histInv (t : Int) (h : List (Int × Int × Int)) (x y : Int)
    (hh : histInv t h) : histInv t (pushCap100 h (t, x, y)) := by
  obtain ⟨hlen, hpw, hbd⟩ := hh
  have hpw2 : List.Pairwise (fun a b : Int × Int × Int => a.1 ≤ b.1)
      (h ++ [(t, x, y)]) := by
    rw [List.pairwise_append]
    refine ⟨hpw, List.pairwise_singleton _ _, ?_⟩
    intro a ha b hb
    simp at hb
    subst hb
    exact hbd a ha
  have hbd2 : ∀ e ∈ h ++ [(t, x, y)], e.1 ≤ t := by
    intro e he
    rcases List.mem_append.mp he with h1 | h1
    · exact hbd e h1
    · simp at h1
      subst h1
      exact le_refl t
  simp only [pushCap100]
  by_cases hc : 100 < (h ++ [(t, x, y)]).length
  · rw [if_pos hc]
    refine ⟨?_, hpw2.sublist (List.tail_sublist _), ?_⟩
    · simp only [List.length_tail, List.length_append, List.length_singleton]
      omega
    · intro e he
      exact hbd2 e (List.mem_of_mem_tail he)
  · rw [if_neg hc]
    refine ⟨?_, hpw2, hbd2⟩
    simp only [List.length_append, List.length_singleton] at hc ⊢
    omega

theorem recordPos_histInv (t x y : Int) (key : String) :
    ∀ ps : List (String × List (Int × Int × Int)),
      (∀ p ∈ ps, histInv t p.2) →
      ∀ p ∈ recordPos ps key (t, x, y), histInv t p.2 := by
  intro ps
  induction ps with
  | nil =>
    intro _ p hp
    simp only [recordPos, List.mem_singleton] at hp
    subst hp
    exact pushCap100_histInv t [] x y ⟨by simp, List.Pairwise.nil, by simp⟩
  | cons kv rest ih =>
    intro hps p hp
    obtain ⟨k, hl⟩ := kv
    by_cases hk : k = key
    · rw [recordPos, if_pos hk] at hp
      rcases List.mem_cons.mp hp with rfl | hmem
      · exact pushCap100_histInv t hl x y (hps (k, hl) (List.mem_cons_self _ _))
      · exact hps p (List.mem_cons_of_mem _ hmem)
    · rw [recordPos, if_neg hk] at hp
      rcases List.mem_cons.mp hp with rfl | hmem
      · exact hps (k, hl) (List.mem_cons_self _ _)
      · exact ih (fun q hq => hps q (List.mem_cons_of_mem _ hq)) p hmem

theorem scanMinimap_histInv (mm : List (String × MinimapObject)) :
    ∀ (ps : List (String × List (Int × Int × Int))) (team t : Int),
      (∀ p ∈ ps, histInv t p.2) →
      ∀ p ∈ scanMinimap ps mm team t, histInv t p.2 := by
  induction mm with
  | nil => intro ps team t hps p hp; exact hps p hp
  | cons kv rest ih =>
    intro ps team t hps p hp
    have hscan : scanMinimap ps (kv :: rest) team t =
        scanMinimap
          (if kv.2.image = "minimap_enemyicon" ∧ kv.2.team = team then
            match kv.2.name with
            | some name => recordPos ps (format_hero_name name) (t, kv.2.xpos, kv.2.ypos)
            | none => ps
          else ps) rest team t := rfl
    rw [hscan] at hp
    refine ih _ team t ?_ p hp
    by_cases hc : kv.2.image = "minimap_enemyicon" ∧ kv.2.team = team
    · rw [if_pos hc]
      rcases hname : kv.2.name with _ | n
      · intro q hq
        exact hps q hq
      · intro q hq
        exact recordPos_histInv t kv.2.xpos kv.2.ypos (format_hero_name n) ps hps q hq
    · rw [if_neg hc]
      exact hps

theorem update_EPTInv (tr : EnemyPositionTracker) (s : GameState)
    (h : EPTInv tr) : EPTInv (tr.update s) := by
  unfold EnemyPositionTracker.update
  by_cases hc : s.gameTime ≤ tr.last_game_time
  · rw [if_pos hc]
    exact h
  · rw [if_neg hc]
    have hmono : ∀ q ∈ tr.positions, histInv s.gameTime q.2 := by
      intro q hq
      obtain ⟨h1, h2, h3⟩ := h q hq
      exact ⟨h1, h2, fun e he => le_trans (h3 e he) (by omega)⟩
    unfold EPTInv
    rcases hmm : s.minimap with _ | mm
    · intro p hp
      dsimp only at hp ⊢
      exact hmono p hp
    · intro p hp
      dsimp only at hp ⊢
      exact scanMinimap_histInv mm tr.positions s.enemyTeamId s.gameTime hmono p hp

theorem foldl_update_EPTInv (snaps : List GameState) :
    EPTInv (snaps.foldl EnemyPositionTracker.update EnemyPositionTracker.new) := by
  have hgen : ∀ tr, EPTInv tr →
      EPTInv (snaps.foldl EnemyPositionTracker.update tr) := by
    induction snaps with
    | nil => intro tr h; exact h
    | cons s rest ih => intro tr h; exact ih _ (update_EPTInv tr s h)
  exact hgen _ (fun p hp => absurd hp (List.not_mem_nil p))

theorem lookupA_mem {α : Type} (l : List (String × α)) (k : String) (v : α)
    (h : lookupA l k = some v) : (k, v) ∈ l := by
  induction l with
  | nil => cases h
  | cons kv rest ih =>
    obtain ⟨k', v'⟩ := kv
    by_cases hk : k' = k
    · rw [lookupA, if_pos hk] at h
      injection h with h
      subst hk
      subst h
      exact List.mem_cons_self _ _
    · rw [lookupA, if_neg hk] at h
      exact List.mem_cons_of_mem _ (ih h)

/-! ## Claim theorems -/

/-- Claim C1 (amended): between two consecutive snapshots the analyzer emits
exactly **one** elimination event per victim-identifier entry whose
elimination counter strictly increases — regardless of the magnitude of the
increase — and every newly recorded elimination is timestamped at the current
snapshot's game clock.  (The claimed "one event per unit of increase" is
false: a counter jump of N still yields a single event, see the
counterexample.) -/
theorem claim_C1 (a : TeamFightAnalyzer) (s l : GameState)
    (cp lp : Player) (ck lk : List (String × Int))
    (hp : s.player = some cp) (hck : cp.kill_list = some ck)
    (hlp : l.player = some lp) (hlk : lp.kill_list = some lk) :
    enemyEventCount (a.update s (some l)) =
      enemyEventCount a +
        (ck.filter (fun kv => decide ((lookupA lk kv.1).getD 0 < kv.2))).length ∧
    ∀ x ∈ allDeathTimes (a.update s (some l)).enemy_deaths,
      x ∈ allDeathTimes a.enemy_deaths ∨ x = s.gameTime := by
  have hrk : (a.recordPlayerDeath s (some l)).recordKills s (some l) =
      ck.foldl (killStep lk s.gameTime) (a.recordPlayerDeath s (some l)) := by
    unfold TeamFightAnalyzer.recordKills
    rw [hp]
    dsimp only
    rw [hlp]
    dsimp only
    rw [hck, hlk]
  constructor
  · calc
      enemyEventCount (a.update s (some l)) =
          enemyEventCount ((a.recordPlayerDeath s (some l)).recordKills s (some l)) := by
        rw [TeamFightAnalyzer.update]
        unfold enemyEventCount
        rw [(detect_events _ _).2]
      _ = enemyEventCount (a.recordPlayerDeath s (some l)) +
            (ck.filter (fun kv => decide ((lookupA lk kv.1).getD 0 < kv.2))).length := by
        rw [hrk, foldl_killStep_count]
      _ = enemyEventCount a +
            (ck.filter (fun kv => decide ((lookupA lk kv.1).getD 0 < kv.2))).length := by
        unfold enemyEventCount
        rw [recordPlayerDeath_enemy_deaths]
  · intro x hx
    rw [TeamFightAnalyzer.update, (detect_events _ _).2, hrk] at hx
    have h1 := foldl_killStep_times lk s.gameTime ck (a.recordPlayerDeath s (some l)) x hx
    rw [recordPlayerDeath_enemy_deaths] at h1
    exact h1

/-- Claim C1 witness: a single victim counter rising 0 → 2 yields exactly the
one event computed by the filter (whose length here is 1). -/
theorem claim_C1_witness :
    enemyEventCount
        (TeamFightAnalyzer.new.update
          { map := some ⟨some 5⟩,
            player := some { team_name := none, last_hits := none, gpm := none,
                             xpm := none, kill_list := some [("victimid_1", 2)] },
            hero := none, abilities := none, minimap := none }
          (some { map := some ⟨some 4⟩,
                  player := some { team_name := none, last_hits := none, gpm := none,
                                   xpm := none, kill_list := some [("victimid_1", 0)] },
                  hero := none, abilities := none, minimap := none })) =
      enemyEventCount TeamFightAnalyzer.new +
        ([("victimid_1", 2)].filter
          (fun kv => decide ((lookupA [("victimid_1", 0)] kv.1).getD 0 < kv.2))).length :=
  (claim_C1 TeamFightAnalyzer.new
    { map := some ⟨some 5⟩,
      player := some { team_name := none, last_hits := none, gpm := none,
                       xpm := none, kill_list := some [("victimid_1", 2)] },
      hero := none, abilities := none, minimap := none }
    { map := some ⟨some 4⟩,
      player := some { team_name := none, last_hits := none, gpm := none,
                       xpm := none, kill_list := some [("victimid_1", 0)] },
      hero := none, abilities := none, minimap := none }
    _ _ _ _ rfl rfl rfl rfl).1

/-- Claim C1 counterexample: the victim counter for `victimid_1` rises by
N = 2 between the snapshots, but the analyzer records a single elimination
event (total event count 1, one timestamp), not the claimed N = 2 events. -/
theorem claim_C1_counterexample :
    TeamFightAnalyzer.totalEvents
        (TeamFightAnalyzer.new.update
          { map := some ⟨some 5⟩,
            player := some { team_name := none, last_hits := none, gpm := none,
                             xpm := none, kill_list := some [("victimid_1", 2)] },
            hero := none, abilities := none, minimap := none }
          (some { map := some ⟨some 4⟩,
                  player := some { team_name := none, last_hits := none, gpm := none,
                                   xpm := none, kill_list := some [("victimid_1", 0)] },
                  hero := none, abilities := none, minimap := none })) = 1 ∧
      (TeamFightAnalyzer.new.update
          { map := some ⟨some 5⟩,
            player := some { team_name := none, last_hits := none, gpm := none,
                             xpm := none, kill_list := some [("victimid_1", 2)] },
            hero := none, abilities := none, minimap := none }
          (some { map := some ⟨some 4⟩,
                  player := some { team_name := none, last_hits := none, gpm := none,
                                   xpm := none, kill_list := some [("victimid_1", 0)] },
                  hero := none, abilities := none, minimap := none })).enemy_deaths =
        [("Enemy1", [5])] := by
  decide

/-- Claim C2 (amended): delivering a duplicate snapshot (identical to the
held one) immediately after it leaves the Event Detector's total emitted
event count unchanged, but does **not** leave the Metric Sampler's series
lengths unchanged: the sampler has no duplicate-discard rule, so each series
whose metric is present in the snapshot grows by one while under its
20-sample cap (see the counterexample). -/
theorem claim_C2 (a : TeamFightAnalyzer) (tr : HeroPerformanceTracker)
    (s : GameState)
    (hnd : (((s.player.bind Player.kill_list).getD []).map Prod.fst).Nodup) :
    (a.update s (some s)).totalEvents = a.totalEvents ∧
    (∀ p g, s.player = some p → p.gpm = some g → tr.gpm_samples.length < 20 →
      (tr.update s (some s)).gpm_samples.length = tr.gpm_samples.length + 1) := by
  constructor
  · rw [TeamFightAnalyzer.update, recordPlayerDeath_dup, recordKills_dup a s hnd,
      detect_totalEvents]
  · intro p g hp hg hlen
    rw [HeroPerformanceTracker.update, (detectDeath_samples _ s (some s)).1,
      pushSamples_gpm tr s p g hp hg]
    exact pushCap20_length_lt _ _ hlen

/-- Claim C2 witness: a concrete duplicate delivery (snapshot with a
one-entry kill list, GPM present) leaves the analyzer's event count at its
old value while the GPM series grows from 0 to 1 samples. -/
theorem claim_C2_witness :
    (TeamFightAnalyzer.new.update
        { map := some ⟨some 5⟩,
          player := some { team_name := none, last_hits := none, gpm := some 400,
                           xpm := none, kill_list := some [("victimid_1", 1)] },
          hero := some { alive := some true, health_percent := none, mana_percent := none },
          abilities := none, minimap := none }
        (some { map := some ⟨some 5⟩,
                player := some { team_name := none, last_hits := none, gpm := some 400,
                                 xpm := none, kill_list := some [("victimid_1", 1)] },
                hero := some { alive := some true, health_percent := none, mana_percent := none },
                abilities := none, minimap := none })).totalEvents =
      TeamFightAnalyzer.new.totalEvents ∧
    (HeroPerformanceTracker.new.update
        { map := some ⟨some 5⟩,
          player := some { team_name := none, last_hits := none, gpm := some 400,
                           xpm := none, kill_list := some [("victimid_1", 1)] },
          hero := some { alive := some true, health_percent := none, mana_percent := none },
          abilities := none, minimap := none }
        (some { map := some ⟨some 5⟩,
                player := some { team_name := none, last_hits := none, gpm := some 400,
                                 xpm := none, kill_list := some [("victimid_1", 1)] },
                hero := some { alive := some true, health_percent := none, mana_percent := none },
                abilities := none, minimap := none })).gpm_samples.length =
      HeroPerformanceTracker.new.gpm_samples.length + 1 :=
  ⟨(claim_C2 TeamFightAnalyzer.new HeroPerformanceTracker.new
      { map := some ⟨some 5⟩,
        player := some { team_name := none, last_hits := none, gpm := some 400,
                         xpm := none, kill_list := some [("victimid_1", 1)] },
        hero := some { alive := some true, health_percent := none, mana_percent := none },
        abilities := none, minimap := none } (by decide)).1,
   (claim_C2 TeamFightAnalyzer.new HeroPerformanceTracker.new
      { map := some ⟨some 5⟩,
        player := some { team_name := none, last_hits := none, gpm := some 400,
                         xpm := none, kill_list := some [("victimid_1", 1)] },
        hero := some { alive := some true, health_percent := none, mana_percent := none },
        abilities := none, minimap := none } (by decide)).2
     _ _ rfl rfl (by decide)⟩

/-- Claim C2 counterexample: after one delivery of a snapshot with GPM
present the GPM series holds 1 sample; delivering the identical snapshot
again (same clock 5, same content) grows it to 2 samples — the claimed
unchanged series length is false. -/
theorem claim_C2_counterexample :
    (HeroPerformanceTracker.new.update
        { map := some ⟨some 5⟩,
          player := some { team_name := none, last_hits := none, gpm := some 400,
                           xpm := none, kill_list := none },
          hero := none, abilities := none, minimap := none }
        none).gpm_samples.length = 1 ∧
    ((HeroPerformanceTracker.new.update
        { map := some ⟨some 5⟩,
          player := some { team_name := none, last_hits := none, gpm := some 400,
                           xpm := none, kill_list := none },
          hero := none, abilities := none, minimap := none }
        none).update
        { map := some ⟨some 5⟩,
          player := some { team_name := none, last_hits := none, gpm := some 400,
                           xpm := none, kill_list := none },
          hero := none, abilities := none, minimap := none }
        (some { map := some ⟨some 5⟩,
                player := some { team_name := none, last_hits := none, gpm := some 400,
                                 xpm := none, kill_list := none },
                hero := none, abilities := none, minimap := none })).gpm_samples.length = 2 := by
  decide

/-- Claim C3: after feeding any sequence of snapshots to the position
tracker starting from its initial state, every retained per-entity history
has length at most 100 and its game-clock values are non-decreasing in
insertion order. -/
theorem claim_C3 (snaps : List GameState) (name : String)
    (h : List (Int × Int × Int))
    (hl : lookupA (snaps.foldl EnemyPositionTracker.update
        EnemyPositionTracker.new).positions name = some h) :
    h.length ≤ 100 ∧
      List.Pairwise (fun a b : Int × Int × Int => a.1 ≤ b.1) h := by
  obtain ⟨h1, h2, _⟩ :=
    foldl_update_EPTInv snaps (name, h) (lookupA_mem _ name h hl)
  exact ⟨h1, h2⟩

/-- Claim C3 witness: the invariant evaluated on a one-snapshot feed that
records one sample for "Axe". -/
theorem claim_C3_witness :
    ([((7 : Int), (4 : Int), (5 : Int))].length ≤ 100 ∧
      List.Pairwise (fun a b : Int × Int × Int => a.1 ≤ b.1)
        [((7 : Int), (4 : Int), (5 : Int))]) :=
  claim_C3
    [{ map := some ⟨some 7⟩, player := none, hero := none, abilities := none,
       minimap := some [("o1",
         { image := "minimap_enemyicon", name := some "npc_dota_hero_axe",
           team := 2, xpos := 4, ypos := 5 })] }]
    "Axe" [(7, 4, 5)] (by decide)

/-- Claim C7 (amended): when the snapshot's locally tracked entity has no
team field, `EnemyPositionTracker::update` treats team id **2** as the
hostile team (the source's `if player_team == "radiant" { 3 } else { 2 }`
falls to the `else` branch on the `"unknown"` default): an entity name is
tracked after the update exactly when it was tracked before or some
hostile-icon-tagged minimap record with team id 2 carries a name formatting
to it. -/
theorem claim_C7 (tr : EnemyPositionTracker) (s : GameState)
    (mm : List (String × MinimapObject))
    (hteam : s.player.bind Player.team_name = none)
    (hmm : s.minimap = some mm)
    (ht : tr.last_game_time < s.gameTime) :
    s.enemyTeamId = 2 ∧
    ∀ nm, lookupA (tr.update s).positions nm ≠ none ↔
      (lookupA tr.positions nm ≠ none ∨
        ∃ kv ∈ mm, kv.2.image = "minimap_enemyicon" ∧ kv.2.team = 2 ∧
          ∃ n, kv.2.name = some n ∧ format_hero_name n = nm) := by
  have hid : s.enemyTeamId = 2 := by
    unfold GameState.enemyTeamId
    rw [hteam]
    simp
  refine ⟨hid, fun nm => ?_⟩
  unfold EnemyPositionTracker.update
  rw [if_neg (by omega : ¬ s.gameTime ≤ tr.last_game_time)]
  dsimp only
  rw [hmm]
  dsimp only
  rw [hid]
  exact scanMinimap_tracked mm tr.positions 2 s.gameTime nm

/-- Claim C7 witness: with no player team, a hostile-icon record with team id
2 named `npc_dota_hero_axe` is tracked (as "Axe") after the update. -/
theorem claim_C7_witness :
    lookupA
        (EnemyPositionTracker.new.update
          { map := some ⟨some 7⟩, player := none, hero := none, abilities := none,
            minimap := some [("o1",
              { image := "minimap_enemyicon", name := some "npc_dota_hero_axe",
                team := 2, xpos := 4, ypos := 5 })] }).positions "Axe" ≠ none :=
  ((claim_C7 EnemyPositionTracker.new
      { map := some ⟨some 7⟩, player := none, hero := none, abilities := none,
        minimap := some [("o1",
          { image := "minimap_enemyicon", name := some "npc_dota_hero_axe",
            team := 2, xpos := 4, ypos := 5 })] }
      [("o1",
        { image := "minimap_enemyicon", name := some "npc_dota_hero_axe",
          team := 2, xpos := 4, ypos := 5 })]
      rfl rfl (by decide)).2 "Axe").mpr
    (Or.inr ⟨("o1",
        { image := "minimap_enemyicon", name := some "npc_dota_hero_axe",
          team := 2, xpos := 4, ypos := 5 }),
      by simp, rfl, rfl, "npc_dota_hero_axe", rfl, by decide⟩)

/-- Claim C7 counterexample: with no player team field, a hostile-icon
record with team id **3** is *not* tracked — the tracker's positions stay
empty — contradicting the claim that team id 3 is treated as hostile. -/
theorem claim_C7_counterexample :
    (EnemyPositionTracker.new.update
        { map := some ⟨some 7⟩, player := none, hero := none, abilities := none,
          minimap := some [("o1",
            { image := "minimap_enemyicon", name := some "npc_dota_hero_axe",
              team := 3, xpos := 4, ypos := 5 })] }).positions = [] ∧
      lookupA
        (EnemyPositionTracker.new.update
          { map := some ⟨some 7⟩, player := none, hero := none, abilities := none,
            minimap := some [("o1",
              { image := "minimap_enemyicon", name := some "npc_dota_hero_axe",
                team := 3, xpos := 4, ypos := 5 })] }).positions "Axe" = none := by
  decide

/-- Claim C10: in both trackers' updates a missing `alive` flag is treated as
alive = true: given hero states on both snapshots, a death event is recorded
iff the previous `alive` field is `true` or absent and the current `alive`
field is present and equal to `false`; and whenever the current snapshot's
`alive` field is not literally `false` (absent hero, absent flag, or `true`),
no death event is recorded. -/
theorem claim_C10 (tr : HeroPerformanceTracker) (a : TeamFightAnalyzer)
    (s l : GameState) (ch lh : Hero)
    (hc : s.hero = some ch) (hl : l.hero = some lh) :
    (((tr.update s (some l)).death_count = tr.death_count + 1) ↔
       ((lh.alive = some true ∨ lh.alive = none) ∧ ch.alive = some false)) ∧
    (((a.update s (some l)).player_deaths.length = a.player_deaths.length + 1) ↔
       ((lh.alive = some true ∨ lh.alive = none) ∧ ch.alive = some false)) ∧
    (∀ (s' : GameState) (ls' : Option GameState),
       s'.hero.bind Hero.alive ≠ some false →
       (tr.update s' ls').death_count = tr.death_count ∧
       (a.update s' ls').player_deaths.length = a.player_deaths.length) := by
  have hnoTrans : ∀ (s' : GameState) (ch' : Hero), s'.hero = some ch' →
      s'.hero.bind Hero.alive ≠ some false → ∀ lh' : Hero,
      deathTransition lh' ch' = false := by
    intro s' ch' hc' hal lh'
    rw [hc'] at hal
    by_cases h : deathTransition lh' ch' = true
    · exact absurd ((deathTransition_iff lh' ch').mp h).2 (by simpa using hal)
    · simpa using h
  refine ⟨?_, ?_, ?_⟩
  · rw [HeroPerformanceTracker.update,
      detectDeath_eq (tr.pushSamples s) s l ch lh hc hl]
    have hdc := (pushSamples_death_fields tr s).1
    rw [← deathTransition_iff lh ch]
    by_cases h : deathTransition lh ch = true
    · simp [h, hdc]
    · simp only [Bool.not_eq_true] at h
      simp [h, hdc]
  · rw [TeamFightAnalyzer.update]
    rw [(detect_events ((a.recordPlayerDeath s (some l)).recordKills s (some l))
        s.gameTime).1,
      recordKills_player_deaths,
      recordPlayerDeath_eq a s l ch lh hc hl]
    rw [← deathTransition_iff lh ch]
    by_cases h : deathTransition lh ch = true
    · simp [h]
    · simp only [Bool.not_eq_true] at h
      simp [h]
  · intro s' ls' hal
    have hno : ∀ ch', s'.hero = some ch' → ∀ lh', deathTransition lh' ch' = false :=
      fun ch' hc' lh' => hnoTrans s' ch' hc' hal lh'
    constructor
    · rw [HeroPerformanceTracker.update, detectDeath_no_trans _ s' ls' hno]
      exact (pushSamples_death_fields tr s').1
    · rw [TeamFightAnalyzer.update,
        (detect_events ((a.recordPlayerDeath s' ls').recordKills s' ls')
          s'.gameTime).1,
        recordKills_player_deaths,
        recordPlayerDeath_no_trans a s' ls' hno]

/-- Claim C10 witness: a concrete alive→dead transition increments both
counters, evaluated at explicit snapshots. -/
theorem claim_C10_witness :
    ((HeroPerformanceTracker.new.update
        { map := some ⟨some 9⟩, player := none,
          hero := some { alive := some false, health_percent := none, mana_percent := none },
          abilities := none, minimap := none }
        (some { map := some ⟨some 8⟩, player := none,
                hero := some { alive := some true, health_percent := none, mana_percent := none },
                abilities := none, minimap := none })).death_count =
      HeroPerformanceTracker.new.death_count + 1) := by
  exact (claim_C10 HeroPerformanceTracker.new TeamFightAnalyzer.new
    { map := some ⟨some 9⟩, player := none,
      hero := some { alive := some false, health_percent := none, mana_percent := none },
      abilities := none, minimap := none }
    { map := some ⟨some 8⟩, player := none,
      hero := some { alive := some true, health_percent := none, mana_percent := none },
      abilities := none, minimap := none }
    { alive := some false, health_percent := none, mana_percent := none }
    { alive := some true, health_percent := none, mana_percent := none }
    rfl rfl).1.mpr ⟨Or.inl rfl, rfl⟩

/-- Claim C4: the engagement state machine of `TeamFightAnalyzer`: starting
from Calm (`team_fight_detected = false`), an update transitions to Engaged
exactly when the time since the most recent recorded event is < 15 and at
least 3 events fall in the trailing 30-second window, recording the current
clock as the engagement start; from Engaged it transitions back to Calm
exactly when the time since the most recent event is ≥ 15, and while it stays
Engaged the recorded start time is unchanged.  (`update` applies `detect` to
the post-event-recording state, so "most recent event" includes events of
this same update.) -/
theorem claim_C4 (a : TeamFightAnalyzer) (t : Int) :
    ((a.team_fight_detected = false →
        (((a.detect t).team_fight_detected = true) ↔
          (t - a.last_kill_time < 15 ∧ 3 ≤ a.count_kills_in_window t 30)) ∧
        ((a.detect t).team_fight_detected = true →
          (a.detect t).team_fight_start = t)) ∧
     (a.team_fight_detected = true →
        (((a.detect t).team_fight_detected = false) ↔ 15 ≤ t - a.last_kill_time) ∧
        ((a.detect t).team_fight_detected = true →
          (a.detect t).team_fight_start = a.team_fight_start))) ∧
    (∀ (s : GameState) (ls : Option GameState),
      a.update s ls = ((a.recordPlayerDeath s ls).recordKills s ls).detect s.gameTime) := by
  refine ⟨⟨?_, ?_⟩, fun s ls => rfl⟩
  · intro hd
    simp only [TeamFightAnalyzer.detect]
    by_cases h15 : t - a.last_kill_time < 15
    · by_cases h3 : 3 ≤ a.count_kills_in_window t 30
      · simp [hd, h15, h3]
      · simp [hd, h15, h3]
    · simp [hd, h15]
  · intro hd
    simp only [TeamFightAnalyzer.detect]
    by_cases h15 : 15 ≤ t - a.last_kill_time
    · simp [hd, h15]
    · simp [hd, h15]

/-- Claim C4 witness: a Calm analyzer with three recent events (one player
death, two eliminations) within the trailing 30-second window and a fresh
last event becomes Engaged with start time 10. -/
theorem claim_C4_witness :
    ((TeamFightAnalyzer.detect ⟨[0], [("EnemyA", [5]), ("EnemyB", [8])], 8, false, 0⟩
        10).team_fight_detected = true) ∧
      ((TeamFightAnalyzer.detect ⟨[0], [("EnemyA", [5]), ("EnemyB", [8])], 8, false, 0⟩
        10).team_fight_start = 10) := by
  have h := claim_C4 ⟨[0], [("EnemyA", [5]), ("EnemyB", [8])], 8, false, 0⟩ 10
  obtain ⟨⟨h1, _⟩, _⟩ := h
  obtain ⟨hiff, hstart⟩ := h1 rfl
  have hd := hiff.mpr ⟨by decide, by decide⟩
  exact ⟨hd, hstart hd⟩

/-- Claim C9 (amended): the team-fight readiness score is an integer in the
fixed range **-2 to 7** (not necessarily non-negative), and it is bucketed
into four advisory tiers. -/
theorem claim_C9 (s : GameState) :
    (-2 ≤ assess_team_fight_readiness s ∧ assess_team_fight_readiness s ≤ 7) ∧
      readinessAdvice (assess_team_fight_readiness s) ∈
        ["  ✅ Team fight readiness: Excellent! All systems ready.",
         "  ⚖️ Team fight readiness: Good. Most resources available.",
         "  ⚠️ Team fight readiness: Caution advised. Limited resources.",
         "  ❌ Team fight readiness: Not ready. Consider retreating."] := by
  constructor
  · unfold assess_team_fight_readiness
    rcases hh : s.hero with _ | h <;> rcases ha : s.abilities with _ | l
    · simp
    · have h1 := ultimateScore_bounds l
      have h2 := keyAbilityScore_bounds l
      dsimp only
      omega
    · have h1 := healthScore_bounds h
      have h2 := manaScore_bounds h
      dsimp only
      omega
    · have h1 := healthScore_bounds h
      have h2 := manaScore_bounds h
      have h3 := ultimateScore_bounds l
      have h4 := keyAbilityScore_bounds l
      dsimp only
      omega
  · unfold readinessAdvice
    split_ifs <;> simp

/-- Claim C9 counterexample: a hero at 10% health and 10% mana with no
ability data scores **-2**, which is negative — the claim's "non-negative
integer (an integer in the range 0 to N)" is false on the code. -/
theorem claim_C9_counterexample :
    assess_team_fight_readiness
        { map := none, player := none,
          hero := some { alive := none, health_percent := some 10, mana_percent := some 10 },
          abilities := none, minimap := none } = -2 ∧
      assess_team_fight_readiness
        { map := none, player := none,
          hero := some { alive := none, health_percent := some 10, mana_percent := some 10 },
          abilities := none, minimap := none } < 0 := by
  decide

/-- Claim C8 (amended): for the GPM series with at least two retained
samples, the report includes the "trending up significantly" line when the
latest value is **strictly greater than** the truncated integer mean plus
100, and the "trending down significantly" line when the latest value is
strictly less than the truncated mean minus 100 (the source compares with
strict `>` / `<` against the integer-division average, and computes trend
lines only for the GPM series). -/
theorem claim_C8 (tr : HeroPerformanceTracker) (game_time : Int)
    (h2 : 2 ≤ tr.gpm_samples.length) :
    (Int.tdiv ((tr.gpm_samples.map Prod.snd).sum) (tr.gpm_samples.length : Int) + 100 <
        ((tr.gpm_samples.getLast?).map Prod.snd).getD 0 →
      "    ✅ GPM trending up significantly!" ∈ tr.display_metrics game_time) ∧
    (((tr.gpm_samples.getLast?).map Prod.snd).getD 0 <
        Int.tdiv ((tr.gpm_samples.map Prod.snd).sum) (tr.gpm_samples.length : Int) - 100 →
      "    ⚠️ GPM trending down significantly" ∈ tr.display_metrics game_time) := by
  constructor
  · intro h
    unfold HeroPerformanceTracker.display_metrics
    apply List.mem_append_left
    apply List.mem_append_left
    apply List.mem_append_left
    unfold HeroPerformanceTracker.gpm_lines
    rw [if_pos h2]
    simp only [if_pos h]
    simp
  · intro h
    unfold HeroPerformanceTracker.display_metrics
    apply List.mem_append_left
    apply List.mem_append_left
    apply List.mem_append_left
    unfold HeroPerformanceTracker.gpm_lines
    rw [if_pos h2]
    have h1 : ¬ (Int.tdiv ((tr.gpm_samples.map Prod.snd).sum) (tr.gpm_samples.length : Int) + 100 <
        ((tr.gpm_samples.getLast?).map Prod.snd).getD 0) := by omega
    have h1' : ¬ (Int.tdiv ((tr.gpm_samples.map Prod.snd).sum) (tr.gpm_samples.length : Int) + 20 <
        ((tr.gpm_samples.getLast?).map Prod.snd).getD 0) := by omega
    simp only [if_neg h1, if_neg h1', if_pos h]
    simp

/-- Claim C8 witness: with samples `[(0,100),(1,301)]` the latest GPM 301
exceeds the truncated mean 200 by more than 100, and the up-significantly
line appears in the report. -/
theorem claim_C8_witness :
    "    ✅ GPM trending up significantly!" ∈
      HeroPerformanceTracker.display_metrics
        { gpm_samples := [(0, 100), (1, 301)], xpm_samples := [],
          last_hits_samples := [], last_death_time := 0, death_count := 0 } 1 :=
  (claim_C8
    { gpm_samples := [(0, 100), (1, 301)], xpm_samples := [],
      last_hits_samples := [], last_death_time := 0, death_count := 0 } 1
    (by decide)).1 (by decide)

/-- Claim C8 counterexample: with samples `[(0,100),(1,300)]` the latest
value 300 equals the arithmetic mean 200 plus exactly 100 (`≥ mean + 100`
holds), yet the report contains the plain "trending up" line and **not** the
"trending up significantly" line — the source uses strict `>`.  The claim
also fails for the XPM series, which gets no trend line at all. -/
theorem claim_C8_counterexample :
    HeroPerformanceTracker.display_metrics
        { gpm_samples := [(0, 100), (1, 300)], xpm_samples := [],
          last_hits_samples := [], last_death_time := 0, death_count := 0 } 1 =
      ["  GPM: 300 (Avg: 200)", "    ✅ GPM trending up",
       "  Deaths: 0 - Excellent survival!"] ∧
    "    ✅ GPM trending up significantly!" ∉
      HeroPerformanceTracker.display_metrics
        { gpm_samples := [(0, 100), (1, 300)], xpm_samples := [],
          last_hits_samples := [], last_death_time := 0, death_count := 0 } 1 := by
  decide

/-- Claim C5 (amended): with exactly the two samples `(t0,(0,0))` and
`(t1,(10,0))` and `0 < t1 - t0 ≤ 30`, `predict_movements` queried at
`t1 + (t1 - t0)` returns exactly `(20, 0)`.  (Without the bound
`t1 - t0 ≤ 30` the entity is skipped by the 30-second recency filter, see
the counterexample.) -/
theorem claim_C5 (name : String) (t0 t1 lgt : Int)
    (h0 : 0 < t1 - t0) (h30 : t1 - t0 ≤ 30) :
    EnemyPositionTracker.predict_movements ⟨[(name, [(t0, 0, 0), (t1, 10, 0)])], lgt⟩
      (t1 + (t1 - t0)) = [(name, 20, 0)] := by
  have ht : t1 + (t1 - t0) - t1 = t1 - t0 := by ring
  have hne : t1 - t0 ≠ 0 := by omega
  unfold EnemyPositionTracker.predict_movements
  simp only [List.foldl_cons, List.foldl_nil]
  norm_num [List.get?, ht, h30, h0, tdivTrunc]
  rw [Int.mul_tdiv_cancel 10 hne]
  norm_num

/-- Claim C5 witness: the amended statement evaluated at
`t0 = 0, t1 = 10`, queried at clock 20. -/
theorem claim_C5_witness :
    EnemyPositionTracker.predict_movements ⟨[("Axe", [(0, 0, 0), (10, 10, 0)])], 10⟩
      20 = [("Axe", 20, 0)] := by
  have h := claim_C5 "Axe" 0 10 10 (by decide) (by decide)
  simpa using h

/-- Claim C5 counterexample: with `t0 = 0, t1 = 31` (so `t1 > t0`), querying
at `now = t1 + (t1 - t0) = 62` returns no prediction at all — `now - t1 = 31`
exceeds the 30-second recency window — instead of the claimed `(20, 0)`. -/
theorem claim_C5_counterexample :
    EnemyPositionTracker.predict_movements ⟨[("Axe", [(0, 0, 0), (31, 10, 0)])], 31⟩
        62 = [] ∧
      ("Axe", 20, 0) ∉
        EnemyPositionTracker.predict_movements ⟨[("Axe", [(0, 0, 0), (31, 10, 0)])], 31⟩
          62 := by
  decide

/-- Claim C6 (amended): for a tracked entity with two samples whose latest is
within the 60-second reporting window, the description report contains the
last-seen line followed by a movement line whose direction is one of the four
cardinal directions chosen by comparing `|Δx|` with `|Δy|` — but a tie
`|Δx| = |Δy|` is broken toward the **vertical** axis (North or South), not
the horizontal one: the source only picks East/West when `|Δx| > |Δy|`
strictly. -/
theorem claim_C6 (name : String) (t0 t1 lgt game_time : Int)
    (x0 y0 x1 y1 : Int) (h60 : game_time - t1 ≤ 60) :
    (EnemyPositionTracker.get_movement_descriptions
        ⟨[(name, [(t0, x0, y0), (t1, x1, y1)])], lgt⟩ game_time =
      [s!"  {name}: Last seen {game_time - t1} seconds ago at ({x1}, {y1})",
       s!"    Moving {movementDirection (x1 - x0) (y1 - y0)}"]) ∧
    (movementDirection (x1 - x0) (y1 - y0) ∈ ["East", "West", "North", "South"]) ∧
    ((x1 - x0).natAbs = (y1 - y0).natAbs →
      movementDirection (x1 - x0) (y1 - y0) = "North" ∨
        movementDirection (x1 - x0) (y1 - y0) = "South") ∧
    ((y1 - y0).natAbs < (x1 - x0).natAbs →
      movementDirection (x1 - x0) (y1 - y0) = "East" ∨
        movementDirection (x1 - x0) (y1 - y0) = "West") ∧
    ((x1 - x0).natAbs ≤ (y1 - y0).natAbs →
      movementDirection (x1 - x0) (y1 - y0) = "North" ∨
        movementDirection (x1 - x0) (y1 - y0) = "South") := by
  refine ⟨?_, ?_, ?_, ?_, ?_⟩
  · unfold EnemyPositionTracker.get_movement_descriptions
    simp only [List.foldl_cons, List.foldl_nil]
    norm_num [List.get?, h60]
  · unfold movementDirection
    split_ifs <;> simp
  · intro hEq
    unfold movementDirection
    rw [if_neg (by omega)]
    split_ifs <;> simp
  · intro hlt
    unfold movementDirection
    rw [if_pos hlt]
    split_ifs <;> simp
  · intro hle
    unfold movementDirection
    rw [if_neg (by omega)]
    split_ifs <;> simp

/-- Claim C6 witness: the amended statement evaluated at a diagonal move
`(0,0) → (5,5)` (a tie `|Δx| = |Δy|`), reported as "Moving North". -/
theorem claim_C6_witness :
    EnemyPositionTracker.get_movement_descriptions
        ⟨[("Axe", [(0, 0, 0), (1, 5, 5)])], 1⟩ 1 =
      ["  Axe: Last seen 0 seconds ago at (5, 5)", "    Moving North"] := by
  have h := (claim_C6 "Axe" 0 1 1 1 0 0 5 5 (by decide)).1
  simpa using h

/-- Claim C6 counterexample: for the tie `|Δx| = |Δy| = 5` the source reports
"Moving North" — a vertical direction — whereas the claim requires the tie to
go to the horizontal axis (East or West). -/
theorem claim_C6_counterexample :
    EnemyPositionTracker.get_movement_descriptions
        ⟨[("Axe", [(0, 0, 0), (1, 5, 5)])], 1⟩ 1 =
      ["  Axe: Last seen 0 seconds ago at (5, 5)", "    Moving North"] ∧
    "    Moving East" ∉
      EnemyPositionTracker.get_movement_descriptions
        ⟨[("Axe", [(0, 0, 0), (1, 5, 5)])], 1⟩ 1 ∧
    "    Moving West" ∉
      EnemyPositionTracker.get_movement_descriptions
        ⟨[("Axe", [(0, 0, 0), (1, 5, 5)])], 1⟩ 1 := by
  decide

